import Mathlib

/-!
Verification model of the simplendef NDEF codec (src/src/ndef.c, ndef_uri.c,
ndef_text.c, ndef_smartposter.c).

Modelling conventions:
* Bytes are `Nat`; a C buffer of `n` bytes is a `List Nat`.  Reading `n` bytes
  starting at offset `p` (a `memcpy`) is `readBytes buf p n`, where an access
  past the end of the list yields 0.
* A C string (`char *`) is the list of its bytes before the terminating NUL;
  valid C strings contain no interior 0 byte.
* `ndef_record` is `NdefRecord`.  The length fields (`type_len`,
  `payload_len`, `id_len`) are kept separate from the byte lists, exactly as
  in the C struct, because parts of the code set them inconsistently.
* Allocation failure is modelled only where a claim is about it (the copy
  mode insert); elsewhere the successful allocation path is modelled.
* In `ndef_raw_record_decode`, the statement `tmp.payload_len |= data[pos] << 24`
  promotes the `uint8_t` to a 32-bit `int`; a byte >= 0x80 shifted left by 24
  lands in the sign bit, and on the reference compilers the resulting negative
  `int` is sign extended when converted to the 64-bit `size_t` `payload_len`,
  setting bits 32..63.  `ndef_assemble_len32` reproduces that behaviour.
-/

/-- Abstract NDEF record (`ndef_record` in ndef.h), without the
`raw_index`/`raw_len` bookkeeping fields, which no settled claim inspects.
Length fields are stored separately from the buffers, as in C. -/
structure NdefRecord where
  tnf : Nat
  type_len : Nat
  payload_len : Nat
  id_len : Nat
  type : List Nat
  payload : List Nat
  id : List Nat
deriving DecidableEq

instance : Inhabited NdefRecord := ⟨⟨0, 0, 0, 0, [], [], []⟩⟩

/-- Raw NDEF record (`ndef_raw_record`): the abstract fields plus the five
encoding flags.  The C union overlay is modelled by embedding the abstract
record. -/
structure NdefRawRecord where
  abstract : NdefRecord
  flag_begin : Bool
  flag_end : Bool
  flag_chunked : Bool
  flag_short_record : Bool
  flag_include_id_len : Bool
deriving DecidableEq

/-- Read `n` bytes of `data` starting at offset `pos` (a bounded `memcpy`).
Out-of-range accesses give 0. -/
def readBytes (data : List Nat) (pos n : Nat) : List Nat :=
  (List.range n).map (fun i => data.getD (pos + i) 0)

/-- The 4-byte big-endian payload length assembly of `ndef_raw_record_decode`,
including the sign extension produced by `|= data[pos] << 24` when the top
byte is at least 0x80 (see the module comment). -/
def ndef_assemble_len32 (b3 b2 b1 b0 : Nat) : Nat :=
  (if 128 ≤ b3 then 2 ^ 64 - 2 ^ 32 else 0) +
    (b3 <<< 24 ||| b2 <<< 16 ||| b1 <<< 8 ||| b0)

/-- Model of `ndef_raw_record_decode` (ndef.c lines 201-303).  `data` is the
input buffer, `len` the declared number of available bytes.  On success it
returns the decoded raw record together with the number of consumed bytes
(the value the C code stores into `*len`); on any failure it returns `none`
and the C code leaves `*len` untouched (zero bytes consumed) and writes no
record to `*out`. -/
def ndef_raw_record_decode (data : List Nat) (len : Nat) : Option (NdefRawRecord × Nat) :=
  if len < 3 then none
  else
    let flags := data.getD 0 0
    let sr := (flags &&& 16) != 0
    let il := (flags &&& 8) != 0
    let ilN := if il then 1 else 0
    if sr && decide (len < 3 + ilN) then none
    else if !sr && decide (len < 5 + ilN) then none
    else
      let type_len := data.getD 1 0
      let payload_len :=
        if sr then data.getD 2 0
        else ndef_assemble_len32 (data.getD 2 0) (data.getD 3 0) (data.getD 4 0) (data.getD 5 0)
      let posL := if sr then 3 else 6
      let id_len := if il then data.getD posL 0 else 0
      let hdr := posL + ilN
      if len < hdr + type_len + payload_len + id_len then none
      else
        some
          ({ abstract :=
              { tnf := flags &&& 7
                type_len := type_len
                payload_len := payload_len
                id_len := id_len
                type := readBytes data hdr type_len
                payload := readBytes data (hdr + type_len) payload_len
                id := readBytes data (hdr + type_len + payload_len) id_len }
             flag_begin := (flags &&& 128) != 0
             flag_end := (flags &&& 64) != 0
             flag_chunked := (flags &&& 32) != 0
             flag_short_record := sr
             flag_include_id_len := il },
           hdr + type_len + payload_len + id_len)

/-- A successful single-record decode consumes at least 3 and at most `len`
bytes. -/
theorem ndef_raw_record_decode_consumed {data : List Nat} {len : Nat}
    {r : NdefRawRecord} {c : Nat}
    (h : ndef_raw_record_decode data len = some (r, c)) : 3 ≤ c ∧ c ≤ len := by
  unfold ndef_raw_record_decode at h
  dsimp only at h
  repeat' split at h
  all_goals try exact Option.noConfusion h
  all_goals
    rw [Option.some.injEq, Prod.mk.injEq] at h
    obtain ⟨-, hc⟩ := h
    subst hc
    omega

/-- The record-decoding loop of `ndef_decode` (ndef.c lines 570-583): decode
records one after another, stopping with a partial flag on the first failure.
The successful-allocation path of `ndef_raw_append` is modelled. -/
def ndef_decode_loop (data : List Nat) (len pos : Nat) : List NdefRawRecord × Bool :=
  if h : pos < len then
    match hm : ndef_raw_record_decode (data.drop pos) (len - pos) with
    | none => ([], true)
    | some (r, c) =>
      let rest := ndef_decode_loop data len (pos + c)
      (r :: rest.1, rest.2)
  else ([], false)
termination_by len - pos
decreasing_by
  have := ndef_raw_record_decode_consumed hm
  omega

/-- Model of `ndef_decode` (ndef.c lines 561-598).  `none` models the NULL
return on absent or empty input.  The result is the list of raw records and
the partial-decode flag; the abstract records of the produced context are the
`abstract` projections of the raw records (the 1:1 promotion loop). -/
def ndef_decode (data : List Nat) : Option (List NdefRawRecord × Bool) :=
  if data.length = 0 then none
  else some (ndef_decode_loop data data.length 0)

/-- Flags byte construction of `ndef_raw_record_encode` (ndef.c lines 310-316). -/
def ndef_flags_byte (rw : NdefRawRecord) : Nat :=
  (if rw.flag_begin then 128 else 0) |||
  (if rw.flag_end then 64 else 0) |||
  (if rw.flag_chunked then 32 else 0) |||
  (if rw.flag_short_record then 16 else 0) |||
  (if rw.flag_include_id_len then 8 else 0) |||
  (rw.abstract.tnf &&& 7)

/-- Model of `ndef_raw_record_encode` (ndef.c lines 306-360), successful
output-stream path.  Single-byte appends truncate to `uint8_t`. -/
def ndef_raw_record_encode (rw : NdefRawRecord) : List Nat :=
  let r := rw.abstract
  ndef_flags_byte rw :: r.type_len % 256 ::
    ((if rw.flag_short_record then [r.payload_len % 256]
      else [r.payload_len >>> 24 % 256, r.payload_len >>> 16 % 256,
            r.payload_len >>> 8 % 256, r.payload_len % 256]) ++
     (if rw.flag_include_id_len then [r.id_len % 256] else []) ++
     readBytes r.type 0 r.type_len ++
     readBytes r.payload 0 r.payload_len ++
     (if rw.flag_include_id_len then readBytes r.id 0 r.id_len else []))

/-- The raw record built for abstract record `i` of `n` by `ndef_encode`
(ndef.c lines 611-618). -/
def ndef_mk_raw (n i : Nat) (r : NdefRecord) : NdefRawRecord :=
  { abstract := r
    flag_begin := decide (i = 0)
    flag_end := decide (i = n - 1)
    flag_chunked := false
    flag_short_record := (r.payload_len &&& 0xffffff00) == 0
    flag_include_id_len := r.id_len != 0 }

/-- Model of `ndef_encode` (ndef.c lines 601-631), successful path: each
abstract record is wrapped into a raw record and encoded in order. -/
def ndef_encode (rs : List NdefRecord) : List Nat :=
  (rs.enum.map (fun p => ndef_raw_record_encode (ndef_mk_raw rs.length p.1 p.2))).flatten

/-! Helper lemmas about `readBytes` and byte arithmetic. -/

theorem readBytes_length (data : List Nat) (pos n : Nat) :
    (readBytes data pos n).length = n := by
  simp [readBytes]

theorem readBytes_getD (data : List Nat) (pos n : Nat) :
    readBytes data pos n = (List.range n).map (fun i => data.getD (pos + i) 0) := rfl

/-- Reading at the seam of an append, shifted by an arbitrary extra offset. -/
theorem readBytes_append (l1 l2 : List Nat) (k n : Nat) :
    readBytes (l1 ++ l2) (l1.length + k) n = readBytes l2 k n := by
  unfold readBytes
  refine List.map_congr_left ?_
  intro i _
  rw [Nat.add_assoc, List.getD_append_right l1 l2 0 _ (by omega)]
  congr 1
  omega

/-- Reading a full list back from the front of an append. -/
theorem readBytes_front (l rest : List Nat) :
    readBytes (l ++ rest) 0 l.length = l := by
  unfold readBytes
  apply List.ext_getElem
  · simp
  · intro i h1 h2
    simp only [List.getElem_map, List.getElem_range]
    rw [Nat.zero_add, List.getD_eq_getElem?_getD, List.getElem?_append_left (by simpa using h2)]
    simp [List.getElem?_eq_getElem, h2]

theorem readBytes_self (l : List Nat) : readBytes l 0 l.length = l := by
  have := readBytes_front l []
  simpa using this

/-- Disjoint bit ranges make bitwise or into addition. -/
theorem shiftLeft_or_eq_add (a b n : Nat) (hb : b < 2 ^ n) :
    a <<< n ||| b = a * 2 ^ n + b := by
  rw [Nat.shiftLeft_eq, Nat.mul_comm]
  exact (Nat.mul_add_lt_is_or hb a).symm

/-- Big-endian reassembly of a payload length below 2^31 is exact: the top
byte stays below 0x80, so no sign extension happens. -/
theorem ndef_assemble_len32_roundtrip (p : Nat) (hp : p < 2 ^ 31) :
    ndef_assemble_len32 (p >>> 24 % 256) (p >>> 16 % 256) (p >>> 8 % 256) (p % 256) = p := by
  have e24 : p >>> 24 = p / 2 ^ 24 := Nat.shiftRight_eq_div_pow p 24
  have e16 : p >>> 16 = p / 2 ^ 16 := Nat.shiftRight_eq_div_pow p 16
  have e8 : p >>> 8 = p / 2 ^ 8 := Nat.shiftRight_eq_div_pow p 8
  unfold ndef_assemble_len32
  rw [if_neg (by rw [e24]; norm_num; omega)]
  rw [Nat.or_assoc, Nat.or_assoc]
  rw [shiftLeft_or_eq_add (p >>> 8 % 256) (p % 256) 8 (by norm_num; omega)]
  rw [shiftLeft_or_eq_add (p >>> 16 % 256) _ 16
    (by rw [e8]; norm_num; omega)]
  rw [shiftLeft_or_eq_add (p >>> 24 % 256) _ 24
    (by rw [e8, e16]; norm_num; omega)]
  rw [e8, e16, e24]
  norm_num
  omega

/-- The short-record test `(payload_len & 0xffffff00) == 0` of `ndef_encode`
is exactly the test `payload_len < 256`, for lengths that fit 32 bits. -/
theorem ndef_sr_test (pl : Nat) (h : pl < 2 ^ 32) :
    ((pl &&& 0xffffff00) == 0) = decide (pl < 256) := by
  rcases lt_or_ge pl 256 with hlt | hge
  · have hz : pl &&& 0xffffff00 = 0 := by
      apply Nat.eq_of_testBit_eq
      intro i
      simp only [Nat.testBit_and, Nat.zero_testBit]
      rcases lt_or_ge i 8 with hi | hi
      · have hm : (0xffffff00 : Nat).testBit i = false := by
          interval_cases i <;> decide
        simp [hm]
      · have h28 : (256 : Nat) ≤ 2 ^ i := by
          calc (256 : Nat) = 2 ^ 8 := by norm_num
            _ ≤ 2 ^ i := Nat.pow_le_pow_right (by norm_num) hi
        have hp : pl.testBit i = false :=
          Nat.testBit_lt_two_pow (lt_of_lt_of_le hlt h28)
        simp [hp]
    simp [hz, hlt]
  · have hne : pl &&& 0xffffff00 ≠ 0 := by
      obtain ⟨i, hi8, hbit⟩ :=
        Nat.ge_two_pow_implies_high_bit_true (x := pl) (n := 8) (by norm_num; omega)
      have hi32 : i < 32 := by
        have hge2 := Nat.testBit_implies_ge hbit
        by_contra hcon
        push_neg at hcon
        have : (2 : Nat) ^ 32 ≤ 2 ^ i := Nat.pow_le_pow_right (by norm_num) hcon
        omega
      intro hz
      have hb : (pl &&& 0xffffff00).testBit i = true := by
        rw [Nat.testBit_and, hbit]
        have hm : (0xffffff00 : Nat).testBit i = true := by
          interval_cases i <;> decide
        simp [hm]
      rw [hz] at hb
      simp at hb
    have h2 : (pl &&& 0xffffff00 == 0) = false := by
      simpa using hne
    rw [h2]
    have : ¬(pl < 256) := by omega
    simp [this]

/-- Field extraction from the flags byte written by `ndef_raw_record_encode`:
each flag bit and the 3-bit TNF read back unchanged. -/
theorem ndef_flags_byte_fields (b e c s i : Bool) : ∀ t : Nat, t < 8 →
    let f := (if b then 128 else 0) ||| (if e then 64 else 0) ||| (if c then 32 else 0) |||
      (if s then 16 else 0) ||| (if i then 8 else 0) ||| t
    ((f &&& 128) != 0) = b ∧ ((f &&& 64) != 0) = e ∧ ((f &&& 32) != 0) = c ∧
      ((f &&& 16) != 0) = s ∧ ((f &&& 8) != 0) = i ∧ f &&& 7 = t := by
  cases b <;> cases e <;> cases c <;> cases s <;> cases i <;> decide

theorem tnf_and_seven (t : Nat) (h : t < 8) : t &&& 7 = t := by
  have h2 : (7 : Nat) = 2 ^ 3 - 1 := by norm_num
  rw [h2]
  exact Nat.and_pow_two_sub_one_of_lt_two_pow (by omega)

theorem mkFlags_fields (b e c s i : Bool) (t f : Nat) (ht : t < 8)
    (hf : f = ((if b then 128 else 0) ||| (if e then 64 else 0) ||| (if c then 32 else 0) |||
      (if s then 16 else 0) ||| (if i then 8 else 0) ||| t)) :
    ((f &&& 128) != 0) = b ∧ ((f &&& 64) != 0) = e ∧ ((f &&& 32) != 0) = c ∧
      ((f &&& 16) != 0) = s ∧ ((f &&& 8) != 0) = i ∧ f &&& 7 = t := by
  subst hf
  cases b <;> cases e <;> cases c <;> cases s <;> cases i <;> revert ht <;> revert t <;> decide

theorem readBytes_split3 (hd ty pb idb : List Nat) :
    readBytes (hd ++ (ty ++ (pb ++ idb))) hd.length ty.length = ty ∧
    readBytes (hd ++ (ty ++ (pb ++ idb))) (hd.length + ty.length) pb.length = pb ∧
    readBytes (hd ++ (ty ++ (pb ++ idb))) (hd.length + ty.length + pb.length) idb.length = idb := by
  refine ⟨?_, ?_, ?_⟩
  · have h1 := readBytes_append hd (ty ++ (pb ++ idb)) 0 ty.length
    rw [Nat.add_zero] at h1
    rw [h1]
    exact readBytes_front ty (pb ++ idb)
  · have h1 := readBytes_append hd (ty ++ (pb ++ idb)) ty.length pb.length
    rw [h1]
    have h2 := readBytes_append ty (pb ++ idb) 0 pb.length
    rw [Nat.add_zero] at h2
    rw [h2]
    exact readBytes_front pb idb
  · have h1 := readBytes_append hd (ty ++ (pb ++ idb)) (ty.length + pb.length) idb.length
    rw [← Nat.add_assoc] at h1
    rw [h1]
    have h2 := readBytes_append ty (pb ++ idb) pb.length idb.length
    rw [h2]
    have h3 := readBytes_append pb idb 0 idb.length
    rw [Nat.add_zero] at h3
    rw [h3]
    exact readBytes_self idb

theorem ndef_raw_record_encode_decode (rw : NdefRawRecord)
    (htl : rw.abstract.type_len = rw.abstract.type.length)
    (hpl : rw.abstract.payload_len = rw.abstract.payload.length)
    (hidl : rw.abstract.id_len = rw.abstract.id.length)
    (htnf : rw.abstract.tnf < 8)
    (ht255 : rw.abstract.type_len ≤ 255)
    (hid255 : rw.abstract.id_len ≤ 255)
    (hsr : rw.flag_short_record = true → rw.abstract.payload_len < 256)
    (hp31 : rw.abstract.payload_len < 2 ^ 31)
    (hil : rw.abstract.id_len ≠ 0 → rw.flag_include_id_len = true) :
    ndef_raw_record_decode (ndef_raw_record_encode rw) (ndef_raw_record_encode rw).length =
      some (rw, (ndef_raw_record_encode rw).length) := by
  obtain ⟨⟨tnf, tl, pl, idl, ty, pb, idb⟩, b, e, c, s, i⟩ := rw
  simp only at htl hpl hidl htnf ht255 hid255 hsr hp31 hil
  have hF := mkFlags_fields b e c s i tnf (ndef_flags_byte ⟨⟨tnf, tl, pl, idl, ty, pb, idb⟩, b, e, c, s, i⟩) htnf
    (by simp [ndef_flags_byte, tnf_and_seven tnf htnf])
  obtain ⟨f128, f64, f32, f16, f8, f7⟩ := hF
  subst htl
  subst hpl
  subst hidl
  have hm256t : ty.length % 256 = ty.length := Nat.mod_eq_of_lt (by omega)
  have hm256i : idb.length % 256 = idb.length := Nat.mod_eq_of_lt (by omega)
  cases s
  case false =>
    have hasm := ndef_assemble_len32_roundtrip pb.length hp31
    cases i
    case false =>
      have hid0 : idb.length = 0 := by
        by_contra hne
        exact absurd (hil (by omega)) (by simp)
      have hidnil : idb = [] := List.length_eq_zero.mp hid0
      subst hidnil
      simp only [List.length_nil] at f128 f64 f32 f16 f8 f7 ⊢
      have hE : ndef_raw_record_encode ⟨⟨tnf, ty.length, pb.length, 0, ty, pb, []⟩, b, e, c, false, false⟩ =
          ndef_flags_byte ⟨⟨tnf, ty.length, pb.length, 0, ty, pb, []⟩, b, e, c, false, false⟩ ::
            ty.length :: pb.length >>> 24 % 256 :: pb.length >>> 16 % 256 ::
            pb.length >>> 8 % 256 :: pb.length % 256 :: (ty ++ pb) := by
        simp [ndef_raw_record_encode, readBytes_self, hm256t]
      rw [hE]
      obtain ⟨rT, rP, rI⟩ := readBytes_split3
        [ndef_flags_byte ⟨⟨tnf, ty.length, pb.length, 0, ty, pb, []⟩, b, e, c, false, false⟩,
         ty.length, pb.length >>> 24 % 256, pb.length >>> 16 % 256,
         pb.length >>> 8 % 256, pb.length % 256] ty pb []
      simp only [List.length_cons, List.length_nil, List.cons_append, List.nil_append,
        List.append_nil] at rT rP rI
      norm_num at rT rP rI
      have hL : (ndef_flags_byte ⟨⟨tnf, ty.length, pb.length, 0, ty, pb, []⟩, b, e, c, false, false⟩ ::
          ty.length :: pb.length >>> 24 % 256 :: pb.length >>> 16 % 256 ::
          pb.length >>> 8 % 256 :: pb.length % 256 :: (ty ++ pb)).length
          = 6 + ty.length + pb.length := by
        simp [List.length_append] <;> omega
      rw [hL]
      have c1 : ¬(6 + ty.length + pb.length < 3) := by omega
      have c2 : ¬(6 + ty.length + pb.length < 5) := by omega
      have p16 : (ndef_flags_byte ⟨⟨tnf, ty.length, pb.length, 0, ty, pb, []⟩, b, e, c, false, false⟩ &&& 16) = 0 := by
        simpa using f16
      have p8 : (ndef_flags_byte ⟨⟨tnf, ty.length, pb.length, 0, ty, pb, []⟩, b, e, c, false, false⟩ &&& 8) = 0 := by
        simpa using f8
      unfold ndef_raw_record_decode
      simp [c1, c2, f128, f64, f32, f16, f8, f7, rT, rP, rI, hasm, p16, p8]
    case true =>
      have hE : ndef_raw_record_encode ⟨⟨tnf, ty.length, pb.length, idb.length, ty, pb, idb⟩, b, e, c, false, true⟩ =
          ndef_flags_byte ⟨⟨tnf, ty.length, pb.length, idb.length, ty, pb, idb⟩, b, e, c, false, true⟩ ::
            ty.length :: pb.length >>> 24 % 256 :: pb.length >>> 16 % 256 ::
            pb.length >>> 8 % 256 :: pb.length % 256 :: idb.length :: (ty ++ (pb ++ idb)) := by
        simp [ndef_raw_record_encode, readBytes_self, hm256t, hm256i]
      rw [hE]
      obtain ⟨rT, rP, rI⟩ := readBytes_split3
        [ndef_flags_byte ⟨⟨tnf, ty.length, pb.length, idb.length, ty, pb, idb⟩, b, e, c, false, true⟩,
         ty.length, pb.length >>> 24 % 256, pb.length >>> 16 % 256,
         pb.length >>> 8 % 256, pb.length % 256, idb.length] ty pb idb
      simp only [List.length_cons, List.length_nil, List.cons_append, List.nil_append] at rT rP rI
      norm_num at rT rP rI
      have hL : (ndef_flags_byte ⟨⟨tnf, ty.length, pb.length, idb.length, ty, pb, idb⟩, b, e, c, false, true⟩ ::
          ty.length :: pb.length >>> 24 % 256 :: pb.length >>> 16 % 256 ::
          pb.length >>> 8 % 256 :: pb.length % 256 :: idb.length :: (ty ++ (pb ++ idb))).length
          = 7 + ty.length + pb.length + idb.length := by
        simp [List.length_append] <;> omega
      rw [hL]
      have c1 : ¬(7 + ty.length + pb.length + idb.length < 3) := by omega
      have c2 : ¬(7 + ty.length + pb.length + idb.length < 6) := by omega
      have p16 : (ndef_flags_byte ⟨⟨tnf, ty.length, pb.length, idb.length, ty, pb, idb⟩, b, e, c, false, true⟩ &&& 16) = 0 := by
        simpa using f16
      have p8 : ¬((ndef_flags_byte ⟨⟨tnf, ty.length, pb.length, idb.length, ty, pb, idb⟩, b, e, c, false, true⟩ &&& 8) = 0) := by
        simpa using f8
      unfold ndef_raw_record_decode
      simp [c1, c2, f128, f64, f32, f16, f8, f7, rT, rP, rI, hasm, p16, p8]
  case true =>
    have hpl256 : pb.length < 256 := hsr rfl
    have hm256p : pb.length % 256 = pb.length := Nat.mod_eq_of_lt (by omega)
    cases i
    case false =>
      have hid0 : idb.length = 0 := by
        by_contra hne
        exact absurd (hil (by omega)) (by simp)
      have hidnil : idb = [] := List.length_eq_zero.mp hid0
      subst hidnil
      simp only [List.length_nil] at f128 f64 f32 f16 f8 f7 ⊢
      have hE : ndef_raw_record_encode ⟨⟨tnf, ty.length, pb.length, 0, ty, pb, []⟩, b, e, c, true, false⟩ =
          ndef_flags_byte ⟨⟨tnf, ty.length, pb.length, 0, ty, pb, []⟩, b, e, c, true, false⟩ ::
            ty.length :: pb.length :: (ty ++ pb) := by
        simp [ndef_raw_record_encode, readBytes_self, hm256t, hm256p]
      rw [hE]
      obtain ⟨rT, rP, rI⟩ := readBytes_split3
        [ndef_flags_byte ⟨⟨tnf, ty.length, pb.length, 0, ty, pb, []⟩, b, e, c, true, false⟩,
         ty.length, pb.length] ty pb []
      simp only [List.length_cons, List.length_nil, List.cons_append, List.nil_append,
        List.append_nil] at rT rP rI
      norm_num at rT rP rI
      have hL : (ndef_flags_byte ⟨⟨tnf, ty.length, pb.length, 0, ty, pb, []⟩, b, e, c, true, false⟩ ::
          ty.length :: pb.length :: (ty ++ pb)).length
          = 3 + ty.length + pb.length := by
        simp [List.length_append] <;> omega
      rw [hL]
      have c1 : ¬(3 + ty.length + pb.length < 3) := by omega
      have p16 : ¬((ndef_flags_byte ⟨⟨tnf, ty.length, pb.length, 0, ty, pb, []⟩, b, e, c, true, false⟩ &&& 16) = 0) := by
        simpa using f16
      have p8 : (ndef_flags_byte ⟨⟨tnf, ty.length, pb.length, 0, ty, pb, []⟩, b, e, c, true, false⟩ &&& 8) = 0 := by
        simpa using f8
      unfold ndef_raw_record_decode
      simp [c1, f128, f64, f32, f16, f8, f7, rT, rP, rI, p16, p8]
    case true =>
      have hE : ndef_raw_record_encode ⟨⟨tnf, ty.length, pb.length, idb.length, ty, pb, idb⟩, b, e, c, true, true⟩ =
          ndef_flags_byte ⟨⟨tnf, ty.length, pb.length, idb.length, ty, pb, idb⟩, b, e, c, true, true⟩ ::
            ty.length :: pb.length :: idb.length :: (ty ++ (pb ++ idb)) := by
        simp [ndef_raw_record_encode, readBytes_self, hm256t, hm256p, hm256i]
      rw [hE]
      obtain ⟨rT, rP, rI⟩ := readBytes_split3
        [ndef_flags_byte ⟨⟨tnf, ty.length, pb.length, idb.length, ty, pb, idb⟩, b, e, c, true, true⟩,
         ty.length, pb.length, idb.length] ty pb idb
      simp only [List.length_cons, List.length_nil, List.cons_append, List.nil_append] at rT rP rI
      norm_num at rT rP rI
      have hL : (ndef_flags_byte ⟨⟨tnf, ty.length, pb.length, idb.length, ty, pb, idb⟩, b, e, c, true, true⟩ ::
          ty.length :: pb.length :: idb.length :: (ty ++ (pb ++ idb))).length
          = 4 + ty.length + pb.length + idb.length := by
        simp [List.length_append] <;> omega
      rw [hL]
      have c1 : ¬(4 + ty.length + pb.length + idb.length < 3) := by omega
      have c2 : ¬(4 + ty.length + pb.length + idb.length < 4) := by omega
      unfold ndef_raw_record_decode
      simp [c1, c2, f128, f64, f32, f16, f8, f7, rT, rP, rI]

theorem ndef_decode_loop_stop (data : List Nat) (len pos : Nat) (h : ¬ pos < len) :
    ndef_decode_loop data len pos = ([], false) := by
  rw [ndef_decode_loop]
  simp [h]

theorem ndef_decode_loop_fail (data : List Nat) (len pos : Nat) (h : pos < len)
    (hd : ndef_raw_record_decode (data.drop pos) (len - pos) = none) :
    ndef_decode_loop data len pos = ([], true) := by
  rw [ndef_decode_loop, dif_pos h]
  split
  next => rfl
  next r c heq =>
    rw [hd] at heq
    exact Option.noConfusion heq

theorem ndef_decode_loop_step (data : List Nat) (len pos : Nat) (h : pos < len)
    {r : NdefRawRecord} {c : Nat}
    (hd : ndef_raw_record_decode (data.drop pos) (len - pos) = some (r, c)) :
    ndef_decode_loop data len pos =
      (r :: (ndef_decode_loop data len (pos + c)).1, (ndef_decode_loop data len (pos + c)).2) := by
  rw [ndef_decode_loop, dif_pos h]
  split
  next heq =>
    rw [hd] at heq
    exact Option.noConfusion heq
  next r2 c2 heq =>
    rw [hd] at heq
    rw [Option.some.injEq, Prod.mk.injEq] at heq
    obtain ⟨h1, h2⟩ := heq
    subst h1
    subst h2
    rfl

/-- Bound on the number of records produced by the decode loop: every
iteration consumes at least 3 bytes. -/
theorem ndef_decode_loop_count (data : List Nat) (len : Nat) :
    ∀ pos, (ndef_decode_loop data len pos).1.length ≤ (len - pos) / 3 := by
  have H : ∀ fuel pos, len - pos ≤ fuel →
      (ndef_decode_loop data len pos).1.length ≤ (len - pos) / 3 := by
    intro fuel
    induction fuel with
    | zero =>
      intro pos hf
      rw [ndef_decode_loop_stop data len pos (by omega)]
      simp
    | succ n ih =>
      intro pos hf
      by_cases hlt : pos < len
      · cases hd : ndef_raw_record_decode (data.drop pos) (len - pos) with
        | none =>
          rw [ndef_decode_loop_fail data len pos hlt hd]
          simp
        | some rc =>
          obtain ⟨r, c⟩ := rc
          have hc := ndef_raw_record_decode_consumed hd
          rw [ndef_decode_loop_step data len pos hlt hd]
          have hrec := ih (pos + c) (by omega)
          simp only [List.length_cons]
          omega
      · rw [ndef_decode_loop_stop data len pos hlt]
        simp
  intro pos
  exact H (len - pos) pos le_rfl

theorem ndef_encode_single (r : NdefRecord) :
    ndef_encode [r] = ndef_raw_record_encode (ndef_mk_raw 1 0 r) := by
  simp [ndef_encode]

theorem ndef_mk_raw_single (r : NdefRecord) :
    ndef_mk_raw 1 0 r =
      ⟨r, true, true, false, ((r.payload_len &&& 0xffffff00) == 0), (r.id_len != 0)⟩ := by
  simp [ndef_mk_raw]

/-- C1 (amended): encoding the one-record message [r] and decoding the
result yields exactly one raw record whose abstract part equals r, with the
begin and end flags recomputed to true by the encoder, for every well-formed
record (length fields matching the buffers, TNF in the 3-bit enum range,
type and id at most 255 bytes) whose payload is at most 2^31 - 1 bytes.
Payload lengths of 2^31 .. 2^32 - 1 are excluded: the decoder sign-extends
the top length byte (see `ndef_assemble_len32`) and rejects the record. -/
theorem C1_single_record_roundtrip (r : NdefRecord)
    (htl : r.type_len = r.type.length) (hpl : r.payload_len = r.payload.length)
    (hidl : r.id_len = r.id.length) (htnf : r.tnf < 8)
    (ht255 : r.type_len ≤ 255) (hid255 : r.id_len ≤ 255)
    (hp : r.payload_len ≤ 2 ^ 31 - 1) :
    ndef_decode (ndef_encode [r]) =
      some ([{ abstract := r, flag_begin := true, flag_end := true, flag_chunked := false,
               flag_short_record := ((r.payload_len &&& 0xffffff00) == 0),
               flag_include_id_len := (r.id_len != 0) }], false) := by
  have hsrd : ((r.payload_len &&& 0xffffff00) == 0) = decide (r.payload_len < 256) :=
    ndef_sr_test _ (by omega)
  have hrt := ndef_raw_record_encode_decode
    ⟨r, true, true, false, ((r.payload_len &&& 0xffffff00) == 0), (r.id_len != 0)⟩
    htl hpl hidl htnf ht255 hid255
    (by intro h; rw [hsrd] at h; simpa using h)
    (show r.payload_len < 2 ^ 31 by omega)
    (by intro hne; simpa using hne)
  have h3 := (ndef_raw_record_decode_consumed hrt).1
  rw [ndef_encode_single, ndef_mk_raw_single]
  unfold ndef_decode
  rw [if_neg (by omega)]
  rw [ndef_decode_loop_step _ _ 0 (by omega) (by simpa using hrt)]
  rw [ndef_decode_loop_stop _ _ _ (by omega)]

/-- Witness for C1 at a concrete record with type, payload and id bytes. -/
theorem C1_single_record_roundtrip_witness :
    ndef_decode (ndef_encode [(⟨1, 1, 2, 1, [85], [4, 120], [7]⟩ : NdefRecord)]) =
      some ([⟨⟨1, 1, 2, 1, [85], [4, 120], [7]⟩, true, true, false, true, true⟩], false) := by
  have h := C1_single_record_roundtrip ⟨1, 1, 2, 1, [85], [4, 120], [7]⟩
    rfl rfl rfl (by decide) (by decide) (by decide) (by norm_num)
  exact h.trans (by decide)

/-- Record with a payload length of exactly 2^31: within the spec claimed
range (payload_len ≤ 2^32−1), but its top length byte is 0x80. -/
def ndefBigPayloadRecord : NdefRecord :=
  ⟨1, 0, 2 ^ 31, 0, [], List.replicate (2 ^ 31) 0, []⟩

theorem readBytes_len_zero (l : List Nat) (p : Nat) : readBytes l p 0 = [] := rfl

/-- Any single-record message whose payload length has the 0x80 bit in its
top length byte is rejected by the decoder: the sign extension makes the
reassembled payload length astronomically large, failing the fit check. -/
theorem ndef_decode_big_payload_fails (pb : List Nat) (pl : Nat)
    (hl : pb.length = pl) (h31 : 2 ^ 31 ≤ pl) (h32 : pl < 2 ^ 32) :
    ndef_decode (ndef_encode [⟨1, 0, pl, 0, [], pb, []⟩]) = some ([], true) := by
  have hsr : ((pl &&& 0xffffff00) == 0) = false := by
    rw [ndef_sr_test pl h32]
    simp
    omega
  have hfb := mkFlags_fields true true false false false 1
    (ndef_flags_byte ⟨⟨1, 0, pl, 0, [], pb, []⟩, true, true, false, false, false⟩)
    (by norm_num)
    (by simp [ndef_flags_byte, (by decide : (1 : Nat) &&& 7 = 1)])
  obtain ⟨f128, f64, f32, f16, f8, f7⟩ := hfb
  have hself : readBytes pb 0 pl = pb := by
    rw [← hl]
    exact readBytes_self pb
  have henc : ndef_encode [(⟨1, 0, pl, 0, [], pb, []⟩ : NdefRecord)] =
      ndef_flags_byte ⟨⟨1, 0, pl, 0, [], pb, []⟩, true, true, false, false, false⟩ ::
      0 :: pl >>> 24 % 256 :: pl >>> 16 % 256 :: pl >>> 8 % 256 :: pl % 256 :: pb := by
    rw [ndef_encode_single, ndef_mk_raw_single]
    simp [ndef_raw_record_encode, hsr, hself, readBytes_len_zero]
  rw [henc]
  have hlen2 : (ndef_flags_byte ⟨⟨1, 0, pl, 0, [], pb, []⟩, true, true, false, false, false⟩ ::
      0 :: pl >>> 24 % 256 :: pl >>> 16 % 256 :: pl >>> 8 % 256 :: pl % 256 :: pb).length
      = 6 + pl := by
    simp [hl]
    omega
  have hb3 : 128 ≤ pl >>> 24 % 256 := by
    rw [Nat.shiftRight_eq_div_pow]
    have hql : pl / 2 ^ 24 < 256 := by omega
    rw [Nat.mod_eq_of_lt hql]
    omega
  have hasm_ge : 2 ^ 64 - 2 ^ 32 ≤
      ndef_assemble_len32 (pl >>> 24 % 256) (pl >>> 16 % 256) (pl >>> 8 % 256) (pl % 256) := by
    unfold ndef_assemble_len32
    rw [if_pos hb3]
    omega
  have hfail : ndef_raw_record_decode
      ((ndef_flags_byte ⟨⟨1, 0, pl, 0, [], pb, []⟩, true, true, false, false, false⟩ ::
        0 :: pl >>> 24 % 256 :: pl >>> 16 % 256 :: pl >>> 8 % 256 :: pl % 256 :: pb).drop 0)
      (6 + pl - 0) = none := by
    simp only [List.drop_zero, Nat.sub_zero]
    unfold ndef_raw_record_decode
    have c1 : ¬(6 + pl < 3) := by omega
    have c2 : ¬(6 + pl < 5) := by omega
    have p16 : ndef_flags_byte ⟨⟨1, 0, pl, 0, [], pb, []⟩, true, true, false, false, false⟩ &&& 16 = 0 := by
      simpa using f16
    have p8 : ndef_flags_byte ⟨⟨1, 0, pl, 0, [], pb, []⟩, true, true, false, false, false⟩ &&& 8 = 0 := by
      simpa using f8
    simp [c1, c2, p16, p8]
    omega
  unfold ndef_decode
  rw [hlen2, if_neg (by omega), ndef_decode_loop_fail _ _ 0 (by omega) hfail]

/-- C1 counterexample: the record with payload length exactly 2^31 is
within the claimed bound payload_len ≤ 2^32 - 1, encodes fine, but decoding
the encoded message yields zero records and the partial flag instead of the
claimed single record. -/
theorem C1_single_record_roundtrip_cex :
    ndefBigPayloadRecord.type_len ≤ 255 ∧ ndefBigPayloadRecord.id_len ≤ 255 ∧
    ndefBigPayloadRecord.payload_len ≤ 2 ^ 32 - 1 ∧
    ndef_decode (ndef_encode [ndefBigPayloadRecord]) = some ([], true) :=
  ⟨by norm_num [ndefBigPayloadRecord], by norm_num [ndefBigPayloadRecord],
    by norm_num [ndefBigPayloadRecord],
    ndef_decode_big_payload_fails (List.replicate (2 ^ 31) 0) (2 ^ 31) (List.length_replicate _ _)
      le_rfl (by norm_num)⟩

/-- Bytes below the declared length are determined by the first `len` bytes. -/
theorem getD_eq_of_take_eq {d1 d2 : List Nat} {len : Nat}
    (h : d1.take len = d2.take len) {i : Nat} (hi : i < len) :
    d1.getD i 0 = d2.getD i 0 := by
  rw [List.getD_eq_getElem?_getD, List.getD_eq_getElem?_getD,
    ← List.getElem?_take_of_lt (l := d1) hi, ← List.getElem?_take_of_lt (l := d2) hi, h]

theorem readBytes_ext {d1 d2 : List Nat} {len : Nat}
    (h : d1.take len = d2.take len) {pos n : Nat} (hn : pos + n ≤ len) :
    readBytes d1 pos n = readBytes d2 pos n := by
  unfold readBytes
  refine List.map_congr_left ?_
  intro i hi
  rw [List.mem_range] at hi
  exact getD_eq_of_take_eq h (by omega)

theorem ndef_raw_record_decode_ext (d1 d2 : List Nat) (len : Nat)
    (h : d1.take len = d2.take len) :
    ndef_raw_record_decode d1 len = ndef_raw_record_decode d2 len := by
  have hg : ∀ i, i < len → d1.getD i 0 = d2.getD i 0 := fun i hi => getD_eq_of_take_eq h hi
  unfold ndef_raw_record_decode
  by_cases h3 : len < 3
  · simp [h3]
  · simp only [if_neg h3]
    have e0 : d2.getD 0 0 = d1.getD 0 0 := (hg 0 (by omega)).symm
    have e1 : d2.getD 1 0 = d1.getD 1 0 := (hg 1 (by omega)).symm
    have e2 : d2.getD 2 0 = d1.getD 2 0 := (hg 2 (by omega)).symm
    rw [e0, e1, e2]
    by_cases hsr : ((d1.getD 0 0 &&& 16) != 0) = true
    · by_cases hil : ((d1.getD 0 0 &&& 8) != 0) = true
      · simp only [hsr, hil, ite_true, Bool.true_and, Bool.not_true, Bool.false_and,
          Bool.false_eq_true, if_false, decide_eq_true_eq]
        by_cases hga : len < 3 + 1
        · simp only [if_pos hga]
        · simp only [if_neg hga]
          have e3 : d2.getD 3 0 = d1.getD 3 0 := (hg 3 (by omega)).symm
          rw [e3]
          by_cases hfit : len < 3 + 1 + d1.getD 1 0 + d1.getD 2 0 + d1.getD 3 0
          · simp only [if_pos hfit]
          · simp only [if_neg hfit]
            rw [← readBytes_ext h (show 3 + 1 + d1.getD 1 0 ≤ len by omega),
              ← readBytes_ext h (show 3 + 1 + d1.getD 1 0 + d1.getD 2 0 ≤ len by omega),
              ← readBytes_ext h
                (show 3 + 1 + d1.getD 1 0 + d1.getD 2 0 + d1.getD 3 0 ≤ len by omega)]
      · rw [Bool.not_eq_true] at hil
        simp only [hsr, hil, ite_true, ite_false, Bool.true_and, Bool.not_true, Bool.false_and,
          Bool.false_eq_true, if_false, decide_eq_true_eq]
        by_cases hga : len < 3 + 0
        · simp only [if_pos hga]
        · simp only [if_neg hga]
          by_cases hfit : len < 3 + 0 + d1.getD 1 0 + d1.getD 2 0 + 0
          · simp only [if_pos hfit]
          · simp only [if_neg hfit]
            rw [← readBytes_ext h (show 3 + 0 + d1.getD 1 0 ≤ len by omega),
              ← readBytes_ext h (show 3 + 0 + d1.getD 1 0 + d1.getD 2 0 ≤ len by omega),
              ← readBytes_ext h
                (show 3 + 0 + d1.getD 1 0 + d1.getD 2 0 + 0 ≤ len by omega)]
    · rw [Bool.not_eq_true] at hsr
      by_cases hil : ((d1.getD 0 0 &&& 8) != 0) = true
      · simp only [hsr, hil, ite_true, ite_false, Bool.true_and, Bool.not_false,
          Bool.false_and, Bool.false_eq_true, if_false, decide_eq_true_eq]
        by_cases hga : len < 5 + 1
        · simp only [if_pos hga]
        · simp only [if_neg hga]
          have e3 : d2.getD 3 0 = d1.getD 3 0 := (hg 3 (by omega)).symm
          have e4 : d2.getD 4 0 = d1.getD 4 0 := (hg 4 (by omega)).symm
          have e5 : d2.getD 5 0 = d1.getD 5 0 := (hg 5 (by omega)).symm
          rw [e3, e4, e5]
          by_cases h7 : 7 ≤ len
          · have e6 : d2.getD 6 0 = d1.getD 6 0 := (hg 6 (by omega)).symm
            rw [e6]
            by_cases hfit : len < 6 + 1 + d1.getD 1 0 +
                ndef_assemble_len32 (d1.getD 2 0) (d1.getD 3 0) (d1.getD 4 0) (d1.getD 5 0) +
                d1.getD 6 0
            · simp only [if_pos hfit]
            · simp only [if_neg hfit]
              rw [← readBytes_ext h (show 6 + 1 + d1.getD 1 0 ≤ len by omega),
                ← readBytes_ext h (by omega),
                ← readBytes_ext h (by omega)]
          · rw [if_pos (by omega), if_pos (by omega)]
      · rw [Bool.not_eq_true] at hil
        simp only [hsr, hil, ite_true, ite_false, Bool.true_and, Bool.not_false,
          Bool.false_and, Bool.false_eq_true, if_false, decide_eq_true_eq]
        by_cases hga : len < 5 + 0
        · simp only [if_pos hga]
        · simp only [if_neg hga]
          have e3 : d2.getD 3 0 = d1.getD 3 0 := (hg 3 (by omega)).symm
          have e4 : d2.getD 4 0 = d1.getD 4 0 := (hg 4 (by omega)).symm
          rw [e3, e4]
          by_cases h6 : 6 ≤ len
          · have e5 : d2.getD 5 0 = d1.getD 5 0 := (hg 5 (by omega)).symm
            rw [e5]
            by_cases hfit : len < 6 + 0 + d1.getD 1 0 +
                ndef_assemble_len32 (d1.getD 2 0) (d1.getD 3 0) (d1.getD 4 0) (d1.getD 5 0) + 0
            · simp only [if_pos hfit]
            · simp only [if_neg hfit]
              rw [← readBytes_ext h (show 6 + 0 + d1.getD 1 0 ≤ len by omega),
                ← readBytes_ext h (by omega),
                ← readBytes_ext h (by omega)]
          · rw [if_pos (by omega), if_pos (by omega)]

/-- Size of the header (flags, type length, payload length, optional id
length) of a decoded raw record, as determined by its flags. -/
def ndef_header_size (rw : NdefRawRecord) : Nat :=
  (if rw.flag_short_record then 3 else 6) + (if rw.flag_include_id_len then 1 else 0)

/-- On success, the consumed byte count is exactly the header plus the three
declared regions, and it fits in the supplied length: the declared regions
never extend past the end of the input. -/
theorem ndef_raw_record_decode_fit {data : List Nat} {len : Nat}
    {rw : NdefRawRecord} {c : Nat}
    (h : ndef_raw_record_decode data len = some (rw, c)) :
    c = ndef_header_size rw + rw.abstract.type_len + rw.abstract.payload_len +
      rw.abstract.id_len ∧ c ≤ len := by
  unfold ndef_raw_record_decode at h
  dsimp only at h
  repeat' split at h
  all_goals try exact Option.noConfusion h
  all_goals
    rw [Option.some.injEq, Prod.mk.injEq] at h
    obtain ⟨hr, hc⟩ := h
    subst hc
    subst hr
    simp_all [ndef_header_size]
    try omega

/-- C5: decoding a buffer shorter than 3 bytes, or one whose declared
type/payload/id regions extend past the end of the available input, fails
with no partial record and no bytes consumed (the `none` result); and the
decode result depends only on the first `len` bytes of the buffer. -/
theorem C5_truncated_decode (data data2 : List Nat) (len : Nat) :
    (len < 3 → ndef_raw_record_decode data len = none) ∧
    (∀ rw c, ndef_raw_record_decode data len = some (rw, c) →
      c = ndef_header_size rw + rw.abstract.type_len + rw.abstract.payload_len +
        rw.abstract.id_len ∧ c ≤ len) ∧
    (data.take len = data2.take len →
      ndef_raw_record_decode data len = ndef_raw_record_decode data2 len) := by
  refine ⟨?_, ?_, ?_⟩
  · intro hlt
    unfold ndef_raw_record_decode
    rw [if_pos hlt]
  · intro rw c hh
    exact ndef_raw_record_decode_fit hh
  · intro htake
    exact ndef_raw_record_decode_ext data data2 len htake

/-- Witness for C5 at concrete inputs. -/
theorem C5_truncated_decode_witness :
    ndef_raw_record_decode [5, 5] 2 = none ∧
    ((6 : Nat) = ndef_header_size
        ⟨⟨1, 1, 2, 0, [85], [4, 120], []⟩, true, true, false, true, false⟩ + 1 + 2 + 0 ∧
      (6 : Nat) ≤ 6) ∧
    ndef_raw_record_decode [209, 1, 2, 85, 4, 120, 9] 6 =
      ndef_raw_record_decode [209, 1, 2, 85, 4, 120, 77] 6 :=
  ⟨(C5_truncated_decode [5, 5] [] 2).1 (by omega),
   (C5_truncated_decode [209, 1, 2, 85, 4, 120] [] 6).2.1
     ⟨⟨1, 1, 2, 0, [85], [4, 120], []⟩, true, true, false, true, false⟩ 6 (by decide),
   (C5_truncated_decode [209, 1, 2, 85, 4, 120, 9] [209, 1, 2, 85, 4, 120, 77] 6).2.2
     (by decide)⟩

/-- Concrete evaluation of the message decode on the 6-byte single URI
record message [209, 1, 2, 85, 4, 120]. -/
theorem ndef_decode_six :
    ndef_decode [209, 1, 2, 85, 4, 120] =
      some ([⟨⟨1, 1, 2, 0, [85], [4, 120], []⟩, true, true, false, true, false⟩], false) := by
  have h1 : ndef_raw_record_decode (([209, 1, 2, 85, 4, 120] : List Nat).drop 0) (6 - 0) =
      some (⟨⟨1, 1, 2, 0, [85], [4, 120], []⟩, true, true, false, true, false⟩, 6) := by
    decide
  unfold ndef_decode
  rw [show ([209, 1, 2, 85, 4, 120] : List Nat).length = 6 from rfl]
  rw [if_neg (by omega)]
  rw [ndef_decode_loop_step _ _ 0 (by omega) h1]
  rw [ndef_decode_loop_stop _ _ _ (by omega)]

/-- C10: every successful single-record decode consumes between 3 bytes and
the remaining length, so the decode loop strictly shrinks the rest of the
input, terminates (it is a total function here), and a buffer of `len` bytes
yields at most `len / 3` records. -/
theorem C10_decode_progress (data : List Nat) :
    (∀ len rw c, ndef_raw_record_decode data len = some (rw, c) → 3 ≤ c ∧ c ≤ len) ∧
    (∀ rs fl, ndef_decode data = some (rs, fl) → rs.length ≤ data.length / 3) := by
  constructor
  · intro len rw c hh
    exact ndef_raw_record_decode_consumed hh
  · intro rs fl hh
    unfold ndef_decode at hh
    split at hh
    · exact Option.noConfusion hh
    · rw [Option.some.injEq] at hh
      have hcount := ndef_decode_loop_count data data.length 0
      rw [hh] at hcount
      simpa using hcount

/-- Witness for C10 at a concrete 6-byte single-record message. -/
theorem C10_decode_progress_witness :
    ((3 : Nat) ≤ 6 ∧ (6 : Nat) ≤ 6) ∧
    ([(⟨⟨1, 1, 2, 0, [85], [4, 120], []⟩, true, true, false, true, false⟩ :
        NdefRawRecord)].length ≤ ([209, 1, 2, 85, 4, 120] : List Nat).length / 3) :=
  ⟨(C10_decode_progress [209, 1, 2, 85, 4, 120]).1 6
      ⟨⟨1, 1, 2, 0, [85], [4, 120], []⟩, true, true, false, true, false⟩ 6 (by decide),
   (C10_decode_progress [209, 1, 2, 85, 4, 120]).2
      [⟨⟨1, 1, 2, 0, [85], [4, 120], []⟩, true, true, false, true, false⟩] false ndef_decode_six⟩

/-! Record store model (ndef.c insert / splice). -/

/-- Message store context: the abstract record array, as a backing buffer
(function from slot index to record, so that cells beyond the length keep
their previous contents, as realloc does) plus the length. -/
structure AbsStore where
  buf : Nat → NdefRecord
  len : Nat

/-- Observable record sequence of a store: the first `len` cells. -/
def AbsStore.records (st : AbsStore) : List NdefRecord :=
  (List.range st.len).map st.buf

/-- The tail-relocation loop of `insert_n` (ndef.c lines 723-726): for
`i = old_len - index - 1` down to 0, `abs[old_len + i] = abs[index + i]`.
Every destination (at or above `old_len`) is distinct from every source
(below `old_len`), so each write reads the original buffer and the loop
equals this simultaneous update. -/
def insert_n_shift (buf : Nat → NdefRecord) (index old_len : Nat) : Nat → NdefRecord :=
  fun j =>
    if old_len ≤ j ∧ j < old_len + (old_len - index) then buf (index + (j - old_len))
    else buf j

/-- The fill loop of `insert_n` (ndef.c lines 729-757), successful path: the
new records land at slots [index, index + count). Copy and Move mode write
the same record values (copy mode additionally clones the byte buffers,
modelled at the pointer level separately). -/
def insert_n_fill (buf : Nat → NdefRecord) (index : Nat)
    (records : List NdefRecord) : Nat → NdefRecord :=
  fun j =>
    if index ≤ j ∧ j < index + records.length then records.getD (j - index) default
    else buf j

/-- Model of `insert_n` (ndef.c lines 698-776), successful path: clamp the
index into [0, len], grow capacity (contents unchanged), relocate the tail,
fill in the new records, set the new length. -/
def insert_n (st : AbsStore) (index : Nat) (records : List NdefRecord) : AbsStore :=
  let idx := min index st.len
  { buf := insert_n_fill (insert_n_shift st.buf idx st.len) idx records
    len := st.len + records.length }

/-- Message store context for the splice claim. -/
structure NdefCtx where
  abs_records : List NdefRecord
deriving DecidableEq

/-- Model of `ndef_splice_n` (ndef.c lines 691-693): after the magic check
the function body is empty, so the store is returned unchanged -- no record
is removed, nothing is compacted, no bookkeeping is adjusted. -/
def ndef_splice_n (ctx : NdefCtx) (index len : Nat) : NdefCtx :=
  ctx

/-- Model of `ndef_splice` (ndef.c lines 686-688). -/
def ndef_splice (ctx : NdefCtx) (index : Nat) : NdefCtx :=
  ndef_splice_n ctx index 1

/-! Pointer-level model of the copy-mode insert, for the clone-failure
error path.  Buffers are identified by numeric ids; `none` is a NULL
pointer.  `allocOk k` tells whether the k-th `malloc` of the batch
succeeds; a successful k-th allocation returns the fresh id `base + k`. -/

/-- Pointer-level `ndef_record`. -/
structure PRecord where
  tnf : Nat
  type_len : Nat
  payload_len : Nat
  id_len : Nat
  type : Option Nat
  payload : Option Nat
  id : Option Nat
deriving DecidableEq

instance : Inhabited PRecord := ⟨⟨0, 0, 0, 0, none, none, none⟩⟩

/-- Point update of a pointer-level buffer. -/
def pupd (buf : Nat → PRecord) (j : Nat) (v : PRecord) : Nat → PRecord :=
  fun x => if x = j then v else buf x

/-- Result of cloning one record in the copy-mode fill loop. -/
structure CloneOneRes where
  slot : PRecord
  k : Nat
  allocated : List Nat
  freed : List Nat
  ok : Bool
deriving DecidableEq

/-- One iteration of the copy-mode fill loop (ndef.c lines 730-757):
`*ptr = records[i]`, then clone type, payload and id in that order; on a
failed `malloc` the already-cloned buffers of this record are freed and the
loop breaks, leaving the slot with the partially replaced pointers. -/
def clone_one (r : PRecord) (allocOk : Nat → Bool) (base k : Nat) : CloneOneRes :=
  if r.type_len ≠ 0 ∧ ¬ allocOk k then
    { slot := { r with type := none }, k := k, allocated := [], freed := [], ok := false }
  else
    let tPtr := if r.type_len ≠ 0 then some (base + k) else r.type
    let k1 := if r.type_len ≠ 0 then k + 1 else k
    let aT := if r.type_len ≠ 0 then [base + k] else []
    if r.payload_len ≠ 0 ∧ ¬ allocOk k1 then
      { slot := { r with type := tPtr, payload := none }, k := k1, allocated := aT,
        freed := tPtr.toList, ok := false }
    else
      let pPtr := if r.payload_len ≠ 0 then some (base + k1) else r.payload
      let k2 := if r.payload_len ≠ 0 then k1 + 1 else k1
      let aP := if r.payload_len ≠ 0 then [base + k1] else []
      if r.id_len ≠ 0 ∧ ¬ allocOk k2 then
        { slot := { r with type := tPtr, payload := pPtr, id := none }, k := k2,
          allocated := aT ++ aP, freed := tPtr.toList ++ pPtr.toList, ok := false }
      else
        let iPtr := if r.id_len ≠ 0 then some (base + k2) else r.id
        let k3 := if r.id_len ≠ 0 then k2 + 1 else k2
        let aI := if r.id_len ≠ 0 then [base + k2] else []
        { slot := { r with type := tPtr, payload := pPtr, id := iPtr }, k := k3,
          allocated := aT ++ aP ++ aI, freed := [], ok := true }

/-- Result of the copy-mode fill loop. -/
structure CloneLoopRes where
  buf : Nat → PRecord
  k : Nat
  allocated : List Nat
  freed : List Nat
  stopped : Nat
  ok : Bool

/-- The copy-mode fill loop over the batch. `i` is the loop counter, `k` the
running malloc counter. -/
def clone_loop (index : Nat) (allocOk : Nat → Bool) (base : Nat) :
    List PRecord → Nat → Nat → (Nat → PRecord) → List Nat → CloneLoopRes
  | [], i, k, buf, acc => ⟨buf, k, acc, [], i, true⟩
  | r :: rs, i, k, buf, acc =>
    let res := clone_one r allocOk base k
    let buf1 := pupd buf (index + i) res.slot
    if res.ok then clone_loop index allocOk base rs (i + 1) res.k buf1 (acc ++ res.allocated)
    else ⟨buf1, res.k, acc ++ res.allocated, res.freed, i, false⟩

/-- Pointer-level tail relocation, identical in shape to `insert_n_shift`. -/
def pshift (buf : Nat → PRecord) (index old_len : Nat) : Nat → PRecord :=
  fun j =>
    if old_len ≤ j ∧ j < old_len + (old_len - index) then buf (index + (j - old_len))
    else buf j

/-- Result of a copy-mode insert at the pointer level. -/
structure CopyInsertResult where
  ok : Bool
  buf : Nat → PRecord
  len : Nat
  allocated : List Nat
  freed : List Nat

/-- Pointer-level model of `insert_n` in copy mode (ndef.c lines 698-776)
with an allocation oracle.  On a clone failure the error path (lines
760-772) runs: the free loop `for (x = 0; x < i; x++)
ndef_record_destroy(ctx->abs_records[index + i])` destroys the pointers of
slot `index + i` (the record whose clone failed) `i` times -- the loop body
uses `i`, not `x` -- and then the shift is undone and the length left
unchanged. -/
def insert_n_copy (buf : Nat → PRecord) (old_len index0 : Nat) (records : List PRecord)
    (allocOk : Nat → Bool) (base : Nat) : CopyInsertResult :=
  let index := min index0 old_len
  let bufS := pshift buf index old_len
  let lr := clone_loop index allocOk base records 0 0 bufS []
  if lr.ok then
    { ok := true, buf := lr.buf, len := old_len + records.length,
      allocated := lr.allocated, freed := lr.freed }
  else
    let i := lr.stopped
    let slot := lr.buf (index + i)
    let destroyedOnce := slot.type.toList ++ slot.payload.toList ++ slot.id.toList
    let freed2 := lr.freed ++ (List.replicate i destroyedOnce).flatten
    let bufU := fun j =>
      if index ≤ j ∧ j < index + (old_len - index) then lr.buf (old_len + (j - index))
      else lr.buf j
    { ok := false, buf := bufU, len := old_len, allocated := lr.allocated, freed := freed2 }

/-- C2: `ndef_splice_n` is a no-op in the code -- its body contains only the
magic check -- so splicing one record out of a one-record store leaves the
length at 1 (the claim requires 0), and in general the store is returned
unchanged. -/
theorem C2_splice_n_is_noop :
    (∀ (ctx : NdefCtx) (index len : Nat), ndef_splice_n ctx index len = ctx) ∧
    (ndef_splice_n ⟨[⟨1, 0, 0, 0, [], [], []⟩]⟩ 0 1).abs_records.length = 1 :=
  ⟨fun _ _ _ => rfl, rfl⟩

/-- C3: batch of two records for the copy-mode clone-failure scenario; the
caller owns buffers 100-104. -/
def ndefC3Batch : List PRecord :=
  [⟨1, 1, 1, 0, some 100, some 101, none⟩, ⟨1, 1, 1, 1, some 102, some 103, some 104⟩]

/-- C3: copy-mode insert of 2 records into an empty store where the clone of
record #1 (= N/2) fails at its type allocation.  The call fails and the
length is restored, but the free loop indexes the wrong slot: the two
buffers already cloned for record #0 (ids 1000, 1001) are leaked, and the
frees hit the caller-owned payload and id buffers of record #1 (ids 103,
104) instead.  The store is not memory-wise as before the call. -/
theorem C3_copy_insert_failure_leaks :
    (insert_n_copy (fun _ => default) 0 0 ndefC3Batch (fun k => decide (k < 2)) 1000).ok
        = false ∧
    (insert_n_copy (fun _ => default) 0 0 ndefC3Batch (fun k => decide (k < 2)) 1000).len = 0 ∧
    (insert_n_copy (fun _ => default) 0 0 ndefC3Batch (fun k => decide (k < 2)) 1000).allocated
        = [1000, 1001] ∧
    (insert_n_copy (fun _ => default) 0 0 ndefC3Batch (fun k => decide (k < 2)) 1000).freed
        = [103, 104] := by
  refine ⟨rfl, rfl, by decide, by decide⟩

/-- C4: inserting one record at the front of a two-record store: the
relocation loop moves the old tail to the wrong slots, so the result is
[new, old1, old0] instead of the claimed [new, old0, old1]. -/
theorem C4_insert_front_scrambles_tail :
    (insert_n ⟨fun j => if j = 0 then ⟨1, 0, 0, 0, [], [], []⟩
                        else if j = 1 then ⟨2, 0, 0, 0, [], [], []⟩
                        else default, 2⟩ 0 [⟨3, 0, 0, 0, [], [], []⟩]).records =
      [⟨3, 0, 0, 0, [], [], []⟩, ⟨2, 0, 0, 0, [], [], []⟩, ⟨1, 0, 0, 0, [], [], []⟩] ∧
    ([⟨3, 0, 0, 0, [], [], []⟩, ⟨2, 0, 0, 0, [], [], []⟩, ⟨1, 0, 0, 0, [], [], []⟩] :
        List NdefRecord) ≠
      [⟨3, 0, 0, 0, [], [], []⟩, ⟨1, 0, 0, 0, [], [], []⟩, ⟨2, 0, 0, 0, [], [], []⟩] := by
  exact ⟨by decide, by decide⟩


/-! URI record codec (ndef_uri.c). -/

/-- The URI abbreviation table (ndef_uri.c lines 30-67), as byte lists.
`NDEF_URI_ABBREVMAX` is 36. -/
def ndef_uri_abbrev_table : List (List Nat) :=
  [
   [],  -- 0: empty
   [104, 116, 116, 112, 58, 47, 47, 119, 119, 119, 46],  -- 1: "http://www."
   [104, 116, 116, 112, 115, 58, 47, 47, 119, 119, 119, 46],  -- 2: "https://www."
   [104, 116, 116, 112, 58, 47, 47],  -- 3: "http://"
   [104, 116, 116, 112, 115, 58, 47, 47],  -- 4: "https://"
   [116, 101, 108, 58],  -- 5: "tel:"
   [109, 97, 105, 108, 116, 111, 58],  -- 6: "mailto:"
   [102, 116, 112, 58, 47, 47, 97, 110, 111, 110, 121, 109, 111, 117, 115, 58, 97, 110, 111, 110, 121, 109, 111, 117, 115, 64],  -- 7: "ftp://anonymous:anonymous@"
   [102, 116, 112, 58, 47, 47, 102, 116, 112, 46],  -- 8: "ftp://ftp."
   [102, 116, 112, 115, 58, 47, 47],  -- 9: "ftps://"
   [115, 102, 116, 112, 58, 47, 47],  -- 10: "sftp://"
   [115, 109, 98, 58, 47, 47],  -- 11: "smb://"
   [110, 102, 115, 58, 47, 47],  -- 12: "nfs://"
   [102, 116, 112, 58, 47, 47],  -- 13: "ftp://"
   [100, 97, 118, 58, 47, 47],  -- 14: "dav://"
   [110, 101, 119, 115, 58],  -- 15: "news:"
   [116, 101, 108, 110, 101, 116, 58, 47, 47],  -- 16: "telnet://"
   [105, 109, 97, 112, 58],  -- 17: "imap:"
   [114, 116, 115, 112, 58, 47, 47],  -- 18: "rtsp://"
   [117, 114, 110, 58],  -- 19: "urn:"
   [112, 111, 112, 58],  -- 20: "pop:"
   [115, 105, 112, 58],  -- 21: "sip:"
   [115, 105, 112, 115, 58],  -- 22: "sips:"
   [116, 102, 116, 112, 58],  -- 23: "tftp:"
   [98, 116, 115, 112, 112, 58, 47, 47],  -- 24: "btspp://"
   [98, 116, 108, 50, 99, 97, 112, 58, 47, 47],  -- 25: "btl2cap://"
   [98, 116, 103, 111, 101, 112, 58, 47, 47],  -- 26: "btgoep://"
   [116, 99, 112, 111, 98, 101, 120, 58, 47, 47],  -- 27: "tcpobex://"
   [105, 114, 100, 97, 111, 98, 101, 120, 58, 47, 47],  -- 28: "irdaobex://"
   [102, 105, 108, 101, 58, 47, 47],  -- 29: "file://"
   [117, 114, 110, 58, 101, 112, 99, 58, 105, 100, 58],  -- 30: "urn:epc:id:"
   [117, 114, 110, 58, 101, 112, 99, 58, 116, 97, 103, 58],  -- 31: "urn:epc:tag:"
   [117, 114, 110, 58, 101, 112, 99, 58, 112, 97, 116, 58],  -- 32: "urn:epc:pat:"
   [117, 114, 110, 58, 101, 112, 99, 58, 114, 97, 119, 58],  -- 33: "urn:epc:raw:"
   [117, 114, 110, 58, 101, 112, 99, 58],  -- 34: "urn:epc:"
   [117, 114, 110, 58, 110, 102, 99, 58]]  -- 35: "urn:nfc:"

/-- All-zero record returned by `ndef_record_init` (ndef.h). -/
def ndef_record_init : NdefRecord := ⟨0, 0, 0, 0, [], [], []⟩

/-- Model of `ndef_record_is_uri` (ndef_uri.c lines 72-74): WellKnown TNF,
one-byte type 'U' (0x55), payload of at least 2 bytes. -/
def ndef_record_is_uri (ctx : NdefRecord) : Bool :=
  ctx.tnf == 1 && ctx.type_len == 1 && ctx.type.getD 0 0 == 85 && decide (2 <= ctx.payload_len)

/-- Model of `ndef_record_get_uri` (ndef_uri.c lines 78-103), successful
allocation path.  The result is the byte content of the returned C string.
The suffix copies use `strnlen`/`strncat`/`strndup`, all of which stop at
the first NUL byte as well as at the `payload_len - 1` bound, hence the
`takeWhile`. -/
def ndef_record_get_uri (ctx : NdefRecord) : Option (List Nat) :=
  if ndef_record_is_uri ctx then
    if ctx.payload.getD 0 0 != 0 then
      if 36 <= ctx.payload.getD 0 0 then none
      else
        some (ndef_uri_abbrev_table.getD (ctx.payload.getD 0 0) [] ++
          (readBytes ctx.payload 1 (ctx.payload_len - 1)).takeWhile (fun b => b != 0))
    else
      some ((readBytes ctx.payload 1 (ctx.payload_len - 1)).takeWhile (fun b => b != 0))
  else none

/-- Model of the static `new_uri` helper (ndef_uri.c lines 106-133),
successful allocation path: payload is the abbreviation byte followed by the
bytes of the suffix string (the NUL written one past `payload_len` is not
part of the payload). -/
def new_uri (ab : Nat) (uri : List Nat) : NdefRecord :=
  { tnf := 1, type_len := 1, payload_len := uri.length + 1, id_len := 0,
    type := [85], payload := ab % 256 :: uri, id := [] }

/-- One step of the abbreviation search loop of `ndef_record_new_uri`
(ndef_uri.c lines 141-147): entry `i` replaces the current best match when
it is strictly longer and `strncmp(table[i], uri, strlen(table[i])) == 0`;
for NUL-free byte strings that comparison says the entry is a literal
prefix of `uri`, i.e. `uri.take len = entry`. -/
def uri_match_step (uri : List Nat) (acc : Nat × Nat) (i : Nat) : Nat × Nat :=
  let e := ndef_uri_abbrev_table.getD i []
  if e.length > acc.2 ∧ e = uri.take e.length then (i, e.length) else acc

/-- The abbreviation search of `ndef_record_new_uri`: scan entries 1..35 in
order, keeping the first longest prefix match; (0, 0) when nothing matches. -/
def ndef_uri_match (uri : List Nat) : Nat × Nat :=
  (List.range' 1 35).foldl (uri_match_step uri) (0, 0)

/-- Model of `ndef_record_new_uri` (ndef_uri.c lines 137-151). -/
def ndef_record_new_uri (uri : List Nat) : NdefRecord :=
  let m := ndef_uri_match uri
  new_uri m.1 (uri.drop m.2)

/-! Text record codec (ndef_text.c). -/

/-- Model of `ndef_record_is_text` (ndef_text.c lines 30-32): WellKnown TNF,
one-byte type 'T' (0x54), payload of at least 4 bytes. -/
def ndef_record_is_text (ctx : NdefRecord) : Bool :=
  ctx.tnf == 1 && ctx.type_len == 1 && ctx.type.getD 0 0 == 84 && decide (4 <= ctx.payload_len)

/-- Model of `ndef_record_get_text` (ndef_text.c lines 36-63), successful
allocation path; the result is the (lang, text) byte strings, `none` the
{NULL, NULL} result.  (When `lang_len + 1 > payload_len` the C size_t
`text_len` underflows to a huge value and the subsequent `malloc` fails,
yielding {NULL, NULL}; that corner is irrelevant to the settled claims and
the model truncates the subtraction at zero.) -/
def ndef_record_get_text (ctx : NdefRecord) : Option (List Nat × List Nat) :=
  if ndef_record_is_text ctx then
    let lang_len := ctx.payload.getD 0 0 &&& 0x3f
    let text_len := ctx.payload_len - lang_len - 1
    some (readBytes ctx.payload 1 lang_len, readBytes ctx.payload (1 + lang_len) text_len)
  else none

/-- Model of `ndef_record_new_text` (ndef_text.c lines 66-100).  The
validity check of line 71 rejects whenever `text_len` is NONZERO (`||
text_len` instead of `|| !text_len`), and the type byte written at line 88
is 'U' (0x55), not 'T'.  Both are modelled as found in the source. -/
def ndef_record_new_text (lang text : List Nat) : NdefRecord :=
  let lang_len := lang.length
  let text_len := text.length
  if lang_len < 2 ∨ text_len != 0 then ndef_record_init
  else
    { tnf := 1, type_len := 1, payload_len := 1 + lang_len + text_len, id_len := 0,
      type := [85], payload := lang_len % 256 :: (lang ++ text), id := [] }

/-- C6: `ndef_record_new_text` applied to lang "en" ([101, 110]) and text
"hi" ([104, 105]).  The inverted validity check (`|| text_len` rather than
`|| !text_len`, ndef_text.c line 71) rejects every non-empty text, so the
all-zero `ndef_record_init()` record is returned instead of a record with
payload [0x02, 'e', 'n', 'h', 'i']; independently, the record built on the
empty-text path would carry type byte 'U', not 'T'. -/
theorem C6_new_text_rejects_nonempty_text :
    ndef_record_new_text [101, 110] [104, 105] = ndef_record_init ∧
    (ndef_record_new_text [101, 110] [104, 105]).payload ≠ [2, 101, 110, 104, 105] ∧
    ndef_record_get_text (ndef_record_new_text [101, 110] [104, 105]) = none := by
  refine ⟨rfl, by decide, rfl⟩

/-! Smart poster codec (ndef_smartposter.c). -/

/-- Model of `ndef_record_is_smartposter` (ndef_smartposter.c lines 31-33):
WellKnown TNF, two-byte type "Sp", non-empty payload. -/
def ndef_record_is_smartposter (ctx : NdefRecord) : Bool :=
  ctx.tnf == 1 && ctx.type_len == 2 && decide (ctx.payload_len ≠ 0) &&
    ctx.type.getD 0 0 == 83 && ctx.type.getD 1 0 == 112

/-- Decoded smart poster summary (`ndef_smartposter` in ndef_smartposter.h):
inner message records, first URI, first text. -/
structure NdefSmartposter where
  ndef : List NdefRecord
  uri : Option (List Nat)
  text : Option (List Nat × List Nat)
deriving DecidableEq

/-- The URI scan loop of `ndef_record_get_smartposter` (lines 45-49): the
first record whose `ndef_record_get_uri` is non-NULL wins; if none is, the
last NULL (or the initial NULL for an empty message) remains. -/
def ndef_sp_first_uri : List NdefRecord → Option (List Nat)
  | [] => none
  | r :: rs =>
    match ndef_record_get_uri r with
    | some u => some u
    | none => ndef_sp_first_uri rs

/-- The text scan loop of `ndef_record_get_smartposter` (lines 52-56). -/
def ndef_sp_first_text : List NdefRecord → Option (List Nat × List Nat)
  | [] => none
  | r :: rs =>
    match ndef_record_get_text r with
    | some t => some t
    | none => ndef_sp_first_text rs

/-- Model of `ndef_record_get_smartposter` (ndef_smartposter.c lines 37-59):
decode the payload as a nested message (an empty record list when the
decode returns NULL), then scan for the first URI and the first text. -/
def ndef_record_get_smartposter (ctx : NdefRecord) : NdefSmartposter :=
  let inner :=
    match ndef_decode (readBytes ctx.payload 0 ctx.payload_len) with
    | none => []
    | some (rs, _) => rs.map (fun rw => rw.abstract)
  { ndef := inner, uri := ndef_sp_first_uri inner, text := ndef_sp_first_text inner }

/-- Model of `ndef_record_new_smartposter` (ndef_smartposter.c lines
64-114), successful allocation path.  The inner message is cloned (or
created empty); a URI record is appended when none is present and a uri was
given (`ndef_append_mv` appends at the end -- the relocation bug of
`insert_n` does not fire for appends); same for text; the inner message is
encoded and wrapped.  The constructed record carries type bytes "Sp" but
`type_len = 1`, exactly as in the source (line 107). -/
def ndef_record_new_smartposter (spNdef : List NdefRecord)
    (spUri : Option (List Nat)) (spText : Option (List Nat × List Nat)) : NdefRecord :=
  let has_uri := spNdef.any (fun r => ndef_record_is_uri r)
  let has_text := spNdef.any (fun r => ndef_record_is_text r)
  let inner1 :=
    match spUri with
    | some u => if has_uri then spNdef else spNdef ++ [ndef_record_new_uri u]
    | none => spNdef
  let inner2 :=
    match spText with
    | some t => if has_text then inner1 else inner1 ++ [ndef_record_new_text t.1 t.2]
    | none => inner1
  let data := ndef_encode inner2
  { tnf := 1, type_len := 1, payload_len := data.length, id_len := 0,
    type := [83, 112], payload := data, id := [] }

set_option maxRecDepth 4000 in
/-- C7: the smart poster built from uri "https://x" and no inner message.
Its payload is the encoded one-record inner message and its type bytes are
"Sp", but the constructor sets `type_len = 1` (ndef_smartposter.c line 107)
while `ndef_record_is_smartposter` requires `type_len == 2`, so the record
is classified `false`.  Decoding the same record with
`ndef_record_get_smartposter` does recover uri "https://x" and no text. -/
theorem C7_smartposter_not_classified :
    ndef_record_is_smartposter
        (ndef_record_new_smartposter [] (some [104, 116, 116, 112, 115, 58, 47, 47, 120]) none)
      = false ∧
    (ndef_record_new_smartposter [] (some [104, 116, 116, 112, 115, 58, 47, 47, 120]) none).type
      = [83, 112] ∧
    (ndef_record_new_smartposter [] (some [104, 116, 116, 112, 115, 58, 47, 47, 120]) none).type_len
      = 1 ∧
    (ndef_record_get_smartposter
        (ndef_record_new_smartposter [] (some [104, 116, 116, 112, 115, 58, 47, 47, 120]) none)).uri
      = some [104, 116, 116, 112, 115, 58, 47, 47, 120] ∧
    (ndef_record_get_smartposter
        (ndef_record_new_smartposter [] (some [104, 116, 116, 112, 115, 58, 47, 47, 120]) none)).text
      = none := by
  have hrec : ndef_record_new_smartposter []
      (some [104, 116, 116, 112, 115, 58, 47, 47, 120]) none =
      ⟨1, 1, 6, 0, [83, 112], [209, 1, 2, 85, 4, 120], []⟩ := by decide
  have hget : ndef_record_get_smartposter
      (⟨1, 1, 6, 0, [83, 112], [209, 1, 2, 85, 4, 120], []⟩ : NdefRecord) =
      ⟨[⟨1, 1, 2, 0, [85], [4, 120], []⟩],
        some [104, 116, 116, 112, 115, 58, 47, 47, 120], none⟩ := by
    unfold ndef_record_get_smartposter
    rw [show readBytes ((⟨1, 1, 6, 0, [83, 112], [209, 1, 2, 85, 4, 120], []⟩ :
        NdefRecord).payload) 0 ((⟨1, 1, 6, 0, [83, 112], [209, 1, 2, 85, 4, 120], []⟩ :
        NdefRecord).payload_len) = [209, 1, 2, 85, 4, 120] from by decide]
    rw [ndef_decode_six]
    decide
  rw [hrec, hget]
  refine ⟨by decide, rfl, rfl, rfl, rfl⟩

theorem readBytes_drop (l : List Nat) (p : Nat) :
    readBytes l p (l.length - p) = l.drop p := by
  unfold readBytes
  apply List.ext_getElem
  · simp
  · intro i h1 h2
    simp only [List.getElem_map, List.getElem_range, List.getElem_drop]
    rw [List.getD_eq_getElem?_getD, List.getElem?_eq_getElem (by simp at h1; omega)]
    rfl

/-- C8 (amended): for a record classified as URI whose payload length field
matches its buffer, `ndef_record_get_uri` is absent when payload byte 0 is
outside the abbreviation table, and otherwise returns the selected prefix
(empty for index 0) followed by payload bytes 1 .. payload_len-1 truncated
at the first zero byte (the result is a NUL-terminated C string and the
copies stop at a NUL). -/
theorem C8_get_uri_abbrev (ctx : NdefRecord)
    (hwf : ctx.payload_len = ctx.payload.length)
    (h : ndef_record_is_uri ctx = true) :
    ndef_record_get_uri ctx =
      if 36 ≤ ctx.payload.getD 0 0 then none
      else some (ndef_uri_abbrev_table.getD (ctx.payload.getD 0 0) [] ++
        (ctx.payload.drop 1).takeWhile (fun b => b != 0)) := by
  unfold ndef_record_get_uri
  rw [if_pos h]
  have hrb : readBytes ctx.payload 1 (ctx.payload_len - 1) = ctx.payload.drop 1 := by
    rw [hwf]
    exact readBytes_drop ctx.payload 1
  rw [hrb]
  by_cases hb : ctx.payload.getD 0 0 = 0
  · rw [hb]
    simp [ndef_uri_abbrev_table]
  · have hbne : (ctx.payload.getD 0 0 != 0) = true := by simpa using hb
    simp [hbne]
    intro h0
    rw [List.getD_eq_getElem?_getD] at hb
    exact absurd h0 hb

/-- Witness for C8 at a concrete "tel:"-abbreviated record. -/
theorem C8_get_uri_abbrev_witness :
    ndef_record_get_uri ⟨1, 1, 3, 0, [85], [5, 120, 121], []⟩ =
      some [116, 101, 108, 58, 120, 121] :=
  (C8_get_uri_abbrev ⟨1, 1, 3, 0, [85], [5, 120, 121], []⟩ (by decide) (by decide)).trans
    (by decide)

/-- C8 counterexample record: a URI record whose payload contains a zero
byte in the suffix ([1, 97, 0, 98] = index 1, then "a", NUL, "b"). -/
def ndefC8Record : NdefRecord := ⟨1, 1, 4, 0, [85], [1, 97, 0, 98], []⟩

/-- C8 counterexample: the decoder stops at the zero byte, returning
"http://www.a", not the claimed "http://www.a\x00b" made of all
payload_len - 1 suffix bytes. -/
theorem C8_zero_byte_truncates :
    ndef_record_is_uri ndefC8Record = true ∧
    ndef_record_get_uri ndefC8Record =
      some [104, 116, 116, 112, 58, 47, 47, 119, 119, 119, 46, 97] ∧
    ndef_record_get_uri ndefC8Record ≠
      some [104, 116, 116, 112, 58, 47, 47, 119, 119, 119, 46, 97, 0, 98] := by
  refine ⟨by decide, by decide, by decide⟩

/-- Entry `j` of the abbreviation table is a literal prefix of `uri` (the
meaning of `strncmp(table[j], uri, strlen(table[j])) == 0` on NUL-free byte
strings). -/
def uriPfx (uri : List Nat) (j : Nat) : Prop :=
  ndef_uri_abbrev_table.getD j [] = uri.take (ndef_uri_abbrev_table.getD j []).length

instance (uri : List Nat) (j : Nat) : Decidable (uriPfx uri j) := by
  unfold uriPfx
  infer_instance

theorem uri_match_step_ge (uri : List Nat) (acc : Nat × Nat) (i : Nat) :
    acc.2 ≤ (uri_match_step uri acc i).2 := by
  unfold uri_match_step
  dsimp only
  split
  · rename_i hcond
    omega
  · exact le_rfl

theorem uri_match_fold_ge (uri : List Nat) (is : List Nat) (acc : Nat × Nat) :
    acc.2 ≤ (is.foldl (uri_match_step uri) acc).2 := by
  induction is generalizing acc with
  | nil => exact le_rfl
  | cons i is ih =>
    simp only [List.foldl_cons]
    exact le_trans (uri_match_step_ge uri acc i) (ih _)

theorem uri_match_fold_max (uri : List Nat) (is : List Nat) (acc : Nat × Nat) :
    ∀ j ∈ is, uriPfx uri j →
      (ndef_uri_abbrev_table.getD j []).length ≤ (is.foldl (uri_match_step uri) acc).2 := by
  induction is generalizing acc with
  | nil => intro j hj; exact absurd hj (List.not_mem_nil j)
  | cons i is ih =>
    intro j hj hpfx
    simp only [List.foldl_cons]
    rcases List.mem_cons.mp hj with hji | hjs
    · subst hji
      by_cases hcond : (ndef_uri_abbrev_table.getD j []).length > acc.2 ∧
          ndef_uri_abbrev_table.getD j [] = uri.take (ndef_uri_abbrev_table.getD j []).length
      · have hstep : (uri_match_step uri acc j).2 = (ndef_uri_abbrev_table.getD j []).length := by
          unfold uri_match_step
          rw [if_pos hcond]
        rw [← hstep]
        exact uri_match_fold_ge uri is _
      · have hle : (ndef_uri_abbrev_table.getD j []).length ≤ acc.2 := by
          rcases not_and_or.mp hcond with hlen | hpfx2
          · omega
          · exact absurd hpfx hpfx2
        exact le_trans hle (le_trans (uri_match_step_ge uri acc j) (uri_match_fold_ge uri is _))
    · exact ih _ j hjs hpfx

/-- Invariant of the abbreviation search: the accumulator is either the
initial (0, 0) or a genuine match from entries 1..35 with its length. -/
def UriMatchInv (uri : List Nat) (acc : Nat × Nat) : Prop :=
  acc = (0, 0) ∨
    (1 ≤ acc.1 ∧ acc.1 ≤ 35 ∧ uriPfx uri acc.1 ∧
      acc.2 = (ndef_uri_abbrev_table.getD acc.1 []).length)

theorem uri_match_fold_inv (uri : List Nat) (is : List Nat) (acc : Nat × Nat)
    (his : ∀ i ∈ is, 1 ≤ i ∧ i ≤ 35) (hacc : UriMatchInv uri acc) :
    UriMatchInv uri (is.foldl (uri_match_step uri) acc) := by
  induction is generalizing acc with
  | nil => exact hacc
  | cons i is ih =>
    simp only [List.foldl_cons]
    refine ih _ (fun x hx => his x (List.mem_cons_of_mem i hx)) ?_
    unfold uri_match_step
    dsimp only
    split
    · rename_i hcond
      right
      refine ⟨(his i (List.mem_cons_self i is)).1, (his i (List.mem_cons_self i is)).2,
        hcond.2, rfl⟩
    · exact hacc

set_option maxRecDepth 8000 in
/-- C9: the abbreviation search of `ndef_record_new_uri` selects a longest
non-empty table entry that is a literal prefix of the input, stores its
index as payload byte 0 followed by the rest of the string, stores byte 0
with the full string when nothing matches, and on "http://www.x" (where
both entry 3 "http://" and entry 1 "http://www." match) picks index 1. -/
theorem C9_new_uri_longest_match (uri : List Nat) :
    (ndef_record_new_uri uri).payload =
      (ndef_uri_match uri).1 :: uri.drop (ndef_uri_match uri).2 ∧
    ((ndef_uri_match uri).1 = 0 → ∀ j, 1 ≤ j → j ≤ 35 → ¬ uriPfx uri j) ∧
    ((ndef_uri_match uri).1 ≠ 0 → 1 ≤ (ndef_uri_match uri).1 ∧ (ndef_uri_match uri).1 ≤ 35 ∧
      uriPfx uri (ndef_uri_match uri).1 ∧
      (ndef_uri_match uri).2 = (ndef_uri_abbrev_table.getD (ndef_uri_match uri).1 []).length ∧
      ∀ j, 1 ≤ j → j ≤ 35 → uriPfx uri j →
        (ndef_uri_abbrev_table.getD j []).length ≤ (ndef_uri_match uri).2) ∧
    ndef_uri_match [104, 116, 116, 112, 58, 47, 47, 119, 119, 119, 46, 120] = (1, 11) ∧
    (ndef_record_new_uri [104, 116, 116, 112, 58, 47, 47, 119, 119, 119, 46, 120]).payload
      = [1, 120] := by
  have hmem : ∀ i ∈ List.range' 1 35, 1 ≤ i ∧ i ≤ 35 := by
    intro i hi
    rw [List.mem_range'] at hi
    obtain ⟨k, hk, hik⟩ := hi
    omega
  have hmemr : ∀ j, 1 ≤ j → j ≤ 35 → j ∈ List.range' 1 35 := by
    intro j hj1 hj2
    rw [List.mem_range']
    exact ⟨j - 1, by omega, by omega⟩
  have hinv : UriMatchInv uri (ndef_uri_match uri) :=
    uri_match_fold_inv uri (List.range' 1 35) (0, 0) hmem (Or.inl rfl)
  have hmax : ∀ j ∈ List.range' 1 35, uriPfx uri j →
      (ndef_uri_abbrev_table.getD j []).length ≤ (ndef_uri_match uri).2 :=
    uri_match_fold_max uri (List.range' 1 35) (0, 0)
  have htne : ∀ j, 1 ≤ j → j ≤ 35 → (ndef_uri_abbrev_table.getD j []).length ≠ 0 := by decide
  refine ⟨?_, ?_, ?_, by decide, by decide⟩
  · have hlt : (ndef_uri_match uri).1 < 256 := by
      rcases hinv with h | hr
      · rw [h]
        omega
      · omega
    unfold ndef_record_new_uri new_uri
    dsimp only
    rw [Nat.mod_eq_of_lt hlt]
  · intro h0
    have hm00 : ndef_uri_match uri = (0, 0) := by
      rcases hinv with h | hr
      · exact h
      · exact absurd h0 (by omega)
    intro j hj1 hj2 hpfx
    have hlen := hmax j (hmemr j hj1 hj2) hpfx
    rw [hm00] at hlen
    exact htne j hj1 hj2 (by omega)
  · intro hne
    rcases hinv with h | hr
    · rw [h] at hne
      exact absurd rfl hne
    · exact ⟨hr.1, hr.2.1, hr.2.2.1, hr.2.2.2,
        fun j hj1 hj2 hpfx => hmax j (hmemr j hj1 hj2) hpfx⟩

set_option maxRecDepth 8000 in
/-- Witness for C9 at "tel:x": the match is entry 5 with length 4 and the
longest-match bound holds for entry 19 "urn:" (not a prefix here). -/
theorem C9_new_uri_longest_match_witness :
    (ndef_record_new_uri [116, 101, 108, 58, 120]).payload =
      (ndef_uri_match [116, 101, 108, 58, 120]).1 ::
        ([116, 101, 108, 58, 120] : List Nat).drop
          (ndef_uri_match [116, 101, 108, 58, 120]).2 ∧
    uriPfx [116, 101, 108, 58, 120] (ndef_uri_match [116, 101, 108, 58, 120]).1 :=
  ⟨(C9_new_uri_longest_match [116, 101, 108, 58, 120]).1,
   ((C9_new_uri_longest_match [116, 101, 108, 58, 120]).2.2.1 (by decide)).2.2.1⟩
